import Mathlib

/-!
Verification of the `scan_os` utility (src/scan_os/main.go): an IP-range host
scanner with concurrent SSH probing.  The Go program is embedded shallowly:

* Go string primitives (`strings.Split`, `strings.Contains`, `strconv.Atoi`,
  `strings.TrimSpace`, `fmt.Sprintf("%d.%d.%d.%d", ...)`) are modelled as
  executable functions on `String` / `List Char`;
* the network (TCP dial, `ssh.Dial`, session creation, command output) and the
  file system (`os.Create`, `WriteString`) are oracles supplied as explicit
  environment records, so each code path becomes a pure function of the oracle;
* each `fmt.Errorf` site of `parseIPRange` becomes one constructor of a typed
  error (`ParseError`), with `renderParseError` recovering the exact message;
* the goroutine-per-target coordinator of `main` (lines 234-277) is modelled
  per worker: `runWorker` returns the single result value the goroutine sends
  on the `results` channel, the number of `ssh.Dial` attempts it performs, and
  whether it ever calls `wg.Done()` (the `defer wg.Done()` at line 135 runs
  only when `getOSInfo` is entered; the unreachable-host branch at lines
  247-254 returns without it).  The result channel is buffered to `len(ips)`,
  so every send succeeds; `close(results)` happens only after `wg.Wait()`
  returns, i.e. only if every launched task decrements the WaitGroup.
-/

namespace ScanOS

/-! ## Go string primitives -/

/-- Split a character list at every occurrence of `sep`; models Go
`strings.Split` with a one-character separator (adjacent separators and
separators at either end produce empty fields, and splitting the empty string
yields one empty field). -/
def splitOnChar (sep : Char) : List Char → List (List Char)
  | [] => [[]]
  | c :: cs =>
    if c = sep then [] :: splitOnChar sep cs
    else
      match splitOnChar sep cs with
      | [] => [[c]]
      | h :: t => (c :: h) :: t

/-- Go `strings.Split(s, sep)` for a one-character separator, on `String`. -/
def goSplit (sep : Char) (s : String) : List String :=
  (splitOnChar sep s.data).map String.mk

/-- Go `strings.Contains(s, sub)` for a one-character `sub`. -/
def goContains (s : String) (c : Char) : Bool :=
  s.data.any (· == c)

/-- Decimal value of a digit list, most significant digit first. -/
def decimalValue (cs : List Char) : Nat :=
  cs.foldl (fun acc c => acc * 10 + (c.toNat - 48)) 0

/-- Go `strconv.Atoi`: an optional single leading `+` or `-` sign followed by
one or more ASCII digits; anything else is an error (`none`).  Values are
unbounded here; Go's 64-bit overflow error cannot trigger on octet-sized
inputs. -/
def goAtoi (s : String) : Option Int :=
  match s.data with
  | [] => none
  | '-' :: ds =>
    if ds ≠ [] ∧ ds.all Char.isDigit then some (-(decimalValue ds : Int)) else none
  | '+' :: ds =>
    if ds ≠ [] ∧ ds.all Char.isDigit then some (decimalValue ds : Int) else none
  | ds =>
    if ds.all Char.isDigit then some (decimalValue ds : Int) else none

/-- Go `unicode.IsSpace`: the `White_Space` code points. -/
def goIsSpace (c : Char) : Bool :=
  (9 ≤ c.toNat && c.toNat ≤ 13) || c.toNat == 32 || c.toNat == 133 || c.toNat == 160 ||
  c.toNat == 5760 || (8192 ≤ c.toNat && c.toNat ≤ 8202) || c.toNat == 8232 ||
  c.toNat == 8233 || c.toNat == 8239 || c.toNat == 8287 || c.toNat == 12288

/-- Go `strings.TrimSpace`: drop leading and trailing white space. -/
def trimSpace (s : String) : String :=
  String.mk (((s.data.dropWhile goIsSpace).reverse.dropWhile goIsSpace).reverse)

/-! ## parseIPRange (main.go lines 33-99) -/

/-- The typed parse errors of `parseIPRange`; one constructor per `fmt.Errorf`
site, carrying the same data the Go format string interpolates. -/
inductive ParseError : Type where
  /-- line 36: `"invalid IP range format"` (part count ≠ 4). -/
  | invalidFormat : ParseError
  /-- line 45: `"invalid range in part %d: %s"` (splitting on `-` did not give
  exactly two pieces). -/
  | invalidRange (i : Nat) (part : String) : ParseError
  /-- line 50: `"invalid start value in part %d: %s"`. -/
  | invalidStart (i : Nat) (s : String) : ParseError
  /-- line 55: `"invalid end value in part %d: %s"`. -/
  | invalidEnd (i : Nat) (s : String) : ParseError
  /-- line 59: `"start cannot be greater than end in part %d"`. -/
  | startGreaterThanEnd (i : Nat) : ParseError
  /-- line 69: `"invalid value in part %d: %s"` (a `-`-free part that is not a
  number). -/
  | invalidValue (i : Nat) (part : String) : ParseError
  /-- line 87: `"invalid IP address: %d.%d.%d.%d"` (octet outside [0,255],
  checked per generated combination). -/
  | invalidIP (a b c d : Int) : ParseError
  /-- line 95: `"no valid IP addresses generated"`. -/
  | noValidIPs : ParseError
deriving DecidableEq, Repr

/-- `fmt.Sprintf("%d.%d.%d.%d", a, b, c, d)` (line 84). -/
def mkIP (a b c d : Int) : String :=
  toString a ++ "." ++ toString b ++ "." ++ toString c ++ "." ++ toString d

/-- The exact message each `fmt.Errorf` site produces. -/
def renderParseError : ParseError → String
  | .invalidFormat => "invalid IP range format"
  | .invalidRange i part => "invalid range in part " ++ toString i ++ ": " ++ part
  | .invalidStart i s => "invalid start value in part " ++ toString i ++ ": " ++ s
  | .invalidEnd i s => "invalid end value in part " ++ toString i ++ ": " ++ s
  | .startGreaterThanEnd i => "start cannot be greater than end in part " ++ toString i
  | .invalidValue i part => "invalid value in part " ++ toString i ++ ": " ++ part
  | .invalidIP a b c d => "invalid IP address: " ++ mkIP a b c d
  | .noValidIPs => "no valid IP addresses generated"

/-- The loop `for j := start; j <= end; j++ { ranges[i] = append(ranges[i], j) }`
(lines 62-64): the inclusive integer range from `a` to `b`. -/
def goIntRange (a b : Int) : List Int :=
  (List.range (b + 1 - a).toNat).map (fun (j : Nat) => a + (j : Int))

/-- The body of the per-part loop of `parseIPRange` (lines 41-73): a part
containing `-` is split into exactly two `Atoi`-parsed bounds with
`start ≤ end` and denotes the inclusive range; any other part is a single
`Atoi`-parsed value. -/
def parsePart (i : Nat) (part : String) : Except ParseError (List Int) :=
  if goContains part '-' = true then
    match goSplit '-' part with
    | [s1, s2] =>
      match goAtoi s1 with
      | none => .error (.invalidStart i s1)
      | some start =>
        match goAtoi s2 with
        | none => .error (.invalidEnd i s2)
        | some stop =>
          if start > stop then .error (.startGreaterThanEnd i)
          else .ok (goIntRange start stop)
    | _ => .error (.invalidRange i part)
  else
    match goAtoi part with
    | none => .error (.invalidValue i part)
    | some value => .ok [value]

/-- The four nested generation loops (lines 77-80): all octet combinations in
nesting order `a`, `b`, `c`, `d` — the fourth octet iterates fastest. -/
def combos (r0 r1 r2 r3 : List Int) : List (Int × Int × Int × Int) :=
  r0.flatMap fun a => r1.flatMap fun b => r2.flatMap fun c => r3.map fun d => (a, b, c, d)

/-- One conjunct of the validity check at lines 82-83: `v >= 0 && v <= 255`. -/
def octetOK (v : Int) : Bool :=
  decide (0 ≤ v) && decide (v ≤ 255)

/-- The full validity check at lines 82-83 for one generated combination. -/
def octetOK4 (q : Int × Int × Int × Int) : Bool :=
  octetOK q.1 && octetOK q.2.1 && octetOK q.2.2.1 && octetOK q.2.2.2

/-- The generation phase (lines 76-92): walk the combinations in loop order,
formatting each valid one and failing on the first combination whose octets
are not all in [0,255] (the Go code returns `nil, err` from inside the loop). -/
def genIPs : List (Int × Int × Int × Int) → Except ParseError (List String)
  | [] => .ok []
  | (a, b, c, d) :: rest =>
    if octetOK4 (a, b, c, d) = true then
      match genIPs rest with
      | .error e => .error e
      | .ok tl => .ok (mkIP a b c d :: tl)
    else .error (.invalidIP a b c d)

/-- `parseIPRange` (lines 33-99): split on `.`, require exactly four parts,
parse each part in order (first error wins), generate all combinations, and
reject a (dead-code) empty expansion. -/
def parseIPRange (ipRange : String) : Except ParseError (List String) :=
  match goSplit '.' ipRange with
  | [p0, p1, p2, p3] =>
    match parsePart 0 p0 with
    | .error e => .error e
    | .ok r0 =>
      match parsePart 1 p1 with
      | .error e => .error e
      | .ok r1 =>
        match parsePart 2 p2 with
        | .error e => .error e
        | .ok r2 =>
          match parsePart 3 p3 with
          | .error e => .error e
          | .ok r3 =>
            match genIPs (combos r0 r1 r2 r3) with
            | .error e => .error e
            | .ok ips => if ips.isEmpty then .error .noValidIPs else .ok ips
  | _ => .error .invalidFormat

/-! ## Parse-back of generated addresses (specification side, for the
distinctness and syntactic-validity statements) -/

/-- Parse a digit string (most significant first) back to its value; `none`
unless nonempty and all ASCII digits. -/
def parseDecChars : List Char → Option Nat
  | [] => none
  | cs => if cs.all Char.isDigit then some (decimalValue cs) else none

/-- Parse a dotted-quad string back into its four octet values. -/
def ipOctets (s : String) : Option (Nat × Nat × Nat × Nat) :=
  match splitOnChar '.' s.data with
  | [q0, q1, q2, q3] =>
    match parseDecChars q0, parseDecChars q1, parseDecChars q2, parseDecChars q3 with
    | some a, some b, some c, some d => some (a, b, c, d)
    | _, _, _, _ => none
  | _ => none

/-! ## SSH layer (main.go lines 16-30, 101-155, 187-196) -/

/-- `time.Duration` is an integer nanosecond count; `time.Second`. -/
def timeSecond : Nat := 1000000000

/-- `SSHConfig` (lines 17-22). -/
structure SSHConfig where
  Username : String
  Password : String
  Port : Nat
  Timeout : Nat
deriving DecidableEq, Repr

/-- `RemoteServer` (lines 25-30); the defaults are Go's zero values, so
`RemoteServer{IP: ip}` is `{ IP := ip }`. -/
structure RemoteServer where
  IP : String
  OSInfo : String := ""
  Success : Bool := false
  Error : String := ""
deriving DecidableEq, Repr

/-- The `ssh.ClientConfig` built at lines 103-110. -/
structure ClientConfig where
  User : String
  AuthPassword : String
  InsecureIgnoreHostKey : Bool
  Timeout : Nat
deriving DecidableEq, Repr

/-- Lines 103-110: password auth, host-key verification disabled. -/
def mkClientConfig (config : SSHConfig) : ClientConfig :=
  { User := config.Username
    AuthPassword := config.Password
    InsecureIgnoreHostKey := true
    Timeout := config.Timeout }

/-- The network as an oracle.  `dialTimeout addr t` is the collapsed outcome of
`net.DialTimeout("tcp", addr, t)` (line 190); `sshDial`, `newSession` and
`sessionOutput` are `ssh.Dial`, `client.NewSession()` and
`session.Output(cmd)` (lines 113, 119, 125), each returning its error detail
on failure. -/
structure NetEnv where
  dialTimeout : String → Nat → Except String Unit
  sshDial : String → ClientConfig → Except String Unit
  newSession : String → Except String Unit
  sessionOutput : String → String → Except String String

/-- `fmt.Sprintf("%s:%d", ip, port)` (lines 112, 189). -/
def sshAddr (ip : String) (port : Nat) : String :=
  ip ++ ":" ++ toString port

/-- `executeSSHCommand` (lines 102-131): dial, open a session, run the command;
each failure is wrapped with its stage's message prefix. -/
def executeSSHCommand (env : NetEnv) (ip : String) (config : SSHConfig)
    (command : String) : Except String String :=
  let address := sshAddr ip config.Port
  match env.sshDial address (mkClientConfig config) with
  | .error e => .error ("failed to dial: " ++ e)
  | .ok _ =>
    match env.newSession address with
    | .error e => .error ("failed to create session: " ++ e)
    | .ok _ =>
      match env.sessionOutput address command with
      | .error e => .error ("failed to execute command: " ++ e)
      | .ok output => .ok output

/-- The primary fingerprint command (line 140). -/
def primaryCmd : String := "cat /etc/os-release"

/-- The fallback fingerprint command (line 143). -/
def fallbackCmd : String := "cat /usr/lib/os-release"

/-- `getOSInfo` (lines 134-155), as the single `RemoteServer` value it sends on
the results channel: try the primary command; on any failure try the fallback
once; if that also fails, record the *second* error; on either success record
the trimmed output. -/
def getOSInfo (env : NetEnv) (ip : String) (config : SSHConfig) : RemoteServer :=
  match executeSSHCommand env ip config primaryCmd with
  | .ok output => { IP := ip, OSInfo := trimSpace output, Success := true }
  | .error _ =>
    match executeSSHCommand env ip config fallbackCmd with
    | .ok output => { IP := ip, OSInfo := trimSpace output, Success := true }
    | .error e => { IP := ip, Success := false, Error := e }

/-- The commands `getOSInfo` actually attempts, in order: each
`executeSSHCommand` call is one attempt, and the fallback runs exactly when
the primary fails (lines 140-143). -/
def osCommandsAttempted (env : NetEnv) (ip : String) (config : SSHConfig) : List String :=
  match executeSSHCommand env ip config primaryCmd with
  | .ok _ => [primaryCmd]
  | .error _ => [primaryCmd, fallbackCmd]

/-- `isHostReachable` (lines 188-196): a bare TCP dial whose error — whatever
it is — collapses to `false`; the handle is closed immediately on success. -/
def isHostReachable (dial : String → Nat → Except String Unit) (ip : String)
    (port : Nat) (timeout : Nat) : Bool :=
  match dial (sshAddr ip port) timeout with
  | .error _ => false
  | .ok _ => true

/-- The fixed reachability timeout `3*time.Second` passed at line 247. -/
def reachabilityTimeout : Nat := 3 * timeSecond

/-! ## The per-target worker and the coordinator (main.go lines 198-290) -/

/-- What one launched goroutine (lines 239-257) does, beyond the semaphore:
`outcome` is the single `RemoteServer` it sends on the buffered results
channel, `sshDials` the number of `ssh.Dial` attempts it makes, and `wgDone`
whether `wg.Done()` runs on its path.  `wg.Done()` is deferred only inside
`getOSInfo` (line 135); the unreachable branch (lines 247-254) sends its
outcome and returns without reaching it. -/
structure WorkerTrace where
  outcome : RemoteServer
  sshDials : Nat
  wgDone : Bool
deriving DecidableEq, Repr

/-- The goroutine body for one target (lines 239-257). -/
def runWorker (env : NetEnv) (config : SSHConfig) (ip : String) : WorkerTrace :=
  if isHostReachable env.dialTimeout ip config.Port reachabilityTimeout = false then
    { outcome := { IP := ip, Success := false, Error := "Host unreachable" }
      sshDials := 0
      wgDone := false }
  else
    { outcome := getOSInfo env ip config
      sshDials := (osCommandsAttempted env ip config).length
      wgDone := true }

/-- The hardcoded configuration of `main` (lines 200-205). -/
def mainConfig : SSHConfig :=
  { Username := "root", Password := "password", Port := 22, Timeout := 10 * timeSecond }

/-- All outcomes sent on the results channel, one per launched worker.  The
channel is buffered to `len(ips)` (line 225), so every send succeeds and the
collector can drain every sent outcome. -/
def scanOutcomes (env : NetEnv) (config : SSHConfig) (ips : List String) : List RemoteServer :=
  ips.map fun ip => (runWorker env config ip).outcome

/-- `successCount` as accumulated by the collector loop (lines 268-277). -/
def successCount (results : List RemoteServer) : Nat :=
  results.countP (·.Success)

/-- `failedCount` as accumulated by the collector loop (lines 268-277). -/
def failedCount (results : List RemoteServer) : Nat :=
  results.countP (fun s => !s.Success)

/-- How many of the launched workers ever call `wg.Done()`.  `main` calls
`wg.Add(1)` once per target (line 236), so `wg.Wait()` returns iff this equals
`ips.length`. -/
def wgDoneCount (env : NetEnv) (config : SSHConfig) (ips : List String) : Nat :=
  ips.countP fun ip => (runWorker env config ip).wgDone

/-- Whether `close(results)` (line 263) ever happens: the closer goroutine
runs it only after `wg.Wait()` returns, i.e. only when every `wg.Add(1)` has
been matched by a `wg.Done()`.  While this is `false` the collector's
`for server := range results` loop (line 268) never terminates. -/
def resultsChannelCloses (env : NetEnv) (config : SSHConfig) (ips : List String) : Bool :=
  wgDoneCount env config ips == ips.length

/-- The gate at lines 216-220: a parse error prints and returns before any
scanning; otherwise the expanded targets are scanned. -/
def runScan (env : NetEnv) (config : SSHConfig) (arg : String) : Option (List RemoteServer) :=
  match parseIPRange arg with
  | .error _ => none
  | .ok ips => some (scanOutcomes env config ips)

/-! ## ResultSink (main.go lines 157-185) and the epilogue of main -/

/-- The file system as an oracle: `create f` is `os.Create(f)`, `write s`
the buffered `WriteString(s)` (with its flush). -/
structure FSEnv where
  create : String → Except String Unit
  write : String → Except String Unit

/-- The payload a `RemoteServer` contributes to its record: `OSInfo` on
success, `Error` on failure (lines 169-181). -/
def payloadOrReason (server : RemoteServer) : String :=
  if server.Success then server.OSInfo else server.Error

/-- One record as written by `saveResultsToFile` (lines 171 and 177):
`fmt.Sprintf("\x7b%s:%s\x7d\n", ...)` with `OSInfo` on success and `Error` on
failure. -/
def formatLine (server : RemoteServer) : String :=
  if server.Success then
    "\x7b" ++ server.IP ++ ":" ++ server.OSInfo ++ "\x7d\n"
  else
    "\x7b" ++ server.IP ++ ":" ++ server.Error ++ "\x7d\n"

/-- The write loop of `saveResultsToFile` (lines 168-182): write each record in
report order, stopping at the first write error; on success return the
records written. -/
def writeLines (fs : FSEnv) : List RemoteServer → Except String (List String)
  | [] => .ok []
  | server :: rest =>
    match fs.write (formatLine server) with
    | .error e => .error e
    | .ok _ =>
      match writeLines fs rest with
      | .error e => .error e
      | .ok tl => .ok (formatLine server :: tl)

/-- `saveResultsToFile` (lines 158-185): create (truncating) the destination,
then write one record per outcome in order. -/
def saveResultsToFile (fs : FSEnv) (results : List RemoteServer)
    (filename : String) : Except String (List String) :=
  match fs.create filename with
  | .error e => .error e
  | .ok _ => writeLines fs results

/-- The fixed output file name (line 280). -/
def outputFile : String := "os-results.txt"

/-- The console lines `main` prints after the collector loop ends (lines
279-289): on a save error it prints the error and returns — the summary
counts are printed only when the save succeeds. -/
def mainTail (fs : FSEnv) (allResults : List RemoteServer) : List String :=
  match saveResultsToFile fs allResults outputFile with
  | .error e => ["Error saving results: " ++ e]
  | .ok _ =>
    ["Scan completed!",
     "Successful: " ++ toString (successCount allResults),
     "Failed: " ++ toString (failedCount allResults),
     "Results saved to: " ++ outputFile]

/-- The full file content on a successful save. -/
def fileContent (results : List RemoteServer) : String :=
  String.join (results.map formatLine)

/-- The characters of one record without its trailing newline:
`\x7b<address>:<payload-or-reason>\x7d`. -/
def recordChars (server : RemoteServer) : List Char :=
  '\x7b' :: (server.IP.data ++ (':' :: (payloadOrReason server).data) ++ ['\x7d'])

/-- Parse one record line back into its `(address, payload-or-reason)` pair:
a leading brace, a trailing brace, and the first colon separating the two. -/
def parseRecordChars (l : List Char) : Option (String × String) :=
  match l with
  | c :: rest =>
    if c = '\x7b' then
      match rest.getLast? with
      | some c2 =>
        if c2 = '\x7d' then
          match (rest.dropLast).span (· != ':') with
          | (addr, c3 :: payload) =>
            if c3 = ':' then some (String.mk addr, String.mk payload) else none
          | _ => none
        else none
      | none => none
    else none
  | [] => none

/-- Parse every line of a result file, failing if any line is malformed. -/
def parseRecords : List (List Char) → Option (List (String × String))
  | [] => some []
  | l :: rest =>
    match parseRecordChars l with
    | none => none
    | some p =>
      match parseRecords rest with
      | none => none
      | some ps => some (p :: ps)

/-- Parse a whole result file back: the content must be newline-terminated
lines, each a well-formed record. -/
def parseResultFile (content : String) : Option (List (String × String)) :=
  let pieces := splitOnChar '\n' content.data
  if pieces.getLast? = some [] then parseRecords pieces.dropLast
  else none

/-! ## Concrete oracles for witnesses and counterexamples -/

/-- A network where every TCP dial fails (all hosts unreachable). -/
def envAllDown : NetEnv :=
  { dialTimeout := fun _ _ => .error "connect: connection refused"
    sshDial := fun _ _ => .error "connect: connection refused"
    newSession := fun _ => .error "unreachable"
    sessionOutput := fun _ _ => .error "unreachable" }

/-- A network where everything succeeds and every command prints an
`os-release` text with surrounding whitespace. -/
def envAllOk : NetEnv :=
  { dialTimeout := fun _ _ => .ok ()
    sshDial := fun _ _ => .ok ()
    newSession := fun _ => .ok ()
    sessionOutput := fun _ _ => .ok " NAME=Ubuntu \n" }

/-- A network where hosts are reachable, the primary command fails and the
fallback succeeds. -/
def envFallbackOk : NetEnv :=
  { dialTimeout := fun _ _ => .ok ()
    sshDial := fun _ _ => .ok ()
    newSession := fun _ => .ok ()
    sessionOutput := fun _ cmd =>
      if cmd = primaryCmd then .error "Process exited with status 1"
      else .ok "\tNAME=Alpine\n" }

/-- A network where hosts are reachable but both fingerprint commands fail. -/
def envBothFail : NetEnv :=
  { dialTimeout := fun _ _ => .ok ()
    sshDial := fun _ _ => .ok ()
    newSession := fun _ => .ok ()
    sessionOutput := fun _ cmd =>
      if cmd = primaryCmd then .error "Process exited with status 1"
      else .error "Process exited with status 2" }

/-- A file system where `os.Create` fails. -/
def fsFailCreate : FSEnv :=
  { create := fun _ => .error "permission denied"
    write := fun _ => .ok () }

/-- A file system where every operation succeeds. -/
def fsAllOk : FSEnv :=
  { create := fun _ => .ok ()
    write := fun _ => .ok () }

/-- Decidable equality for `Except`, for concrete evaluation of results. -/
instance {ε α : Type} [DecidableEq ε] [DecidableEq α] : DecidableEq (Except ε α) := fun x y =>
  match x, y with
  | .error a, .error b =>
    if h : a = b then .isTrue (by rw [h]) else .isFalse (fun hh => by cases hh; exact h rfl)
  | .error _, .ok _ => .isFalse (fun hh => by cases hh)
  | .ok _, .error _ => .isFalse (fun hh => by cases hh)
  | .ok a, .ok b =>
    if h : a = b then .isTrue (by rw [h]) else .isFalse (fun hh => by cases hh; exact h rfl)

/-! ## String and list helper lemmas -/

theorem mk_data (s : String) : String.mk s.data = s := by
  cases s
  rfl

theorem data_append (a b : String) : (a ++ b).data = a.data ++ b.data := by
  cases a
  cases b
  rfl

theorem splitOnChar_ne_nil (sep : Char) (l : List Char) : splitOnChar sep l ≠ [] := by
  induction l with
  | nil => simp [splitOnChar]
  | cons c cs ih =>
    by_cases h : c = sep
    · simp [splitOnChar, h]
    · simp only [splitOnChar, if_neg h]
      cases hs : splitOnChar sep cs with
      | nil => simp
      | cons hd tl => simp

theorem splitOnChar_no_sep (sep : Char) (l : List Char) (h : sep ∉ l) :
    splitOnChar sep l = [l] := by
  induction l with
  | nil => rfl
  | cons c cs ih =>
    have hc : c ≠ sep := fun hh => h (hh ▸ List.mem_cons_self c cs)
    have hcs : sep ∉ cs := fun hh => h (List.mem_cons_of_mem _ hh)
    simp only [splitOnChar, if_neg hc, ih hcs]

theorem splitOnChar_append (sep : Char) (xs rest : List Char) (h : sep ∉ xs) :
    splitOnChar sep (xs ++ sep :: rest) = xs :: splitOnChar sep rest := by
  induction xs with
  | nil => simp [splitOnChar]
  | cons x xs ih =>
    have hx : x ≠ sep := fun hh => h (hh ▸ List.mem_cons_self x xs)
    have hxs : sep ∉ xs := fun hh => h (List.mem_cons_of_mem _ hh)
    simp only [List.cons_append, splitOnChar, if_neg hx, List.append_eq]
    rw [ih hxs]

set_option maxRecDepth 2000 in
theorem parseDecChars_repr : ∀ n : Nat, n < 256 → parseDecChars (Nat.repr n).data = some n := by
  decide

theorem parseDecChars_digits (l : List Char) (n : Nat) (h : parseDecChars l = some n) :
    ∀ c ∈ l, c.isDigit = true := by
  cases l with
  | nil => simp [parseDecChars] at h
  | cons c0 cs =>
    rw [show parseDecChars (c0 :: cs)
        = if (c0 :: cs).all Char.isDigit then some (decimalValue (c0 :: cs)) else none
      from rfl] at h
    by_cases hall : (c0 :: cs).all Char.isDigit = true
    · exact fun c hc => List.all_eq_true.mp hall c hc
    · rw [if_neg hall] at h
      cases h

theorem not_mem_of_parseDec (l : List Char) (n : Nat) (h : parseDecChars l = some n)
    (c : Char) (hc : c.isDigit = false) : c ∉ l := fun hm => by
  have := parseDecChars_digits l n h c hm
  rw [hc] at this
  cases this

theorem span_append_sep (p : Char → Bool) (xs ys : List Char) (y : Char)
    (hxs : ∀ x ∈ xs, p x = true) (hy : p y = false) :
    (xs ++ y :: ys).span p = (xs, y :: ys) := by
  induction xs with
  | nil => simp [List.span_eq_take_drop, List.takeWhile_cons, List.dropWhile_cons, hy]
  | cons x xs ih =>
    have hx := hxs x (List.mem_cons_self x xs)
    have ih' := ih (fun z hz => hxs z (List.mem_cons_of_mem _ hz))
    simp only [List.span_eq_take_drop, List.takeWhile_cons, List.dropWhile_cons,
      Prod.mk.injEq] at ih' ⊢
    simp [hx, hy, ih'.1, ih'.2]

/-! ## Helper lemmas about the range expander -/

theorem goIntRange_length (a b : Int) : (goIntRange a b).length = (b + 1 - a).toNat := by
  unfold goIntRange
  rw [List.length_map, List.length_range]

theorem goIntRange_nodup (a b : Int) : (goIntRange a b).Nodup := by
  unfold goIntRange
  have inj : Function.Injective (fun j : Nat => a + (j : Int)) := by
    intro x y hxy
    dsimp at hxy
    omega
  exact List.Nodup.map inj (List.nodup_range _)

theorem goIntRange_ne_nil (a b : Int) (h : a ≤ b) : goIntRange a b ≠ [] := by
  intro hh
  have hl := goIntRange_length a b
  rw [hh] at hl
  simp at hl
  omega

theorem parsePart_ok_shape (i : Nat) (p : String) (r : List Int) (h : parsePart i p = .ok r) :
    (goContains p '-' = true ∧ ∃ s1 s2 a b, goSplit '-' p = [s1, s2] ∧ goAtoi s1 = some a ∧
      goAtoi s2 = some b ∧ a ≤ b ∧ r = goIntRange a b) ∨
    (goContains p '-' = false ∧ ∃ v, goAtoi p = some v ∧ r = [v]) := by
  unfold parsePart at h
  split at h
  · rename_i hc
    left
    refine ⟨hc, ?_⟩
    split at h
    · rename_i s1 s2 hsp
      split at h
      · cases h
      · rename_i a ha
        split at h
        · cases h
        · rename_i b hb
          split at h
          · cases h
          · rename_i hab
            cases h
            exact ⟨s1, s2, a, b, hsp, ha, hb, by omega, rfl⟩
    · cases h
  · rename_i hc
    right
    refine ⟨by simpa using hc, ?_⟩
    split at h
    · cases h
    · rename_i v hv
      cases h
      exact ⟨v, hv, rfl⟩

theorem parsePart_ok_ne_nil (i : Nat) (p : String) (r : List Int)
    (h : parsePart i p = .ok r) : r ≠ [] := by
  rcases parsePart_ok_shape i p r h with ⟨_, s1, s2, a, b, _, _, _, hab, hr⟩ | ⟨_, v, _, hr⟩
  · rw [hr]
    exact goIntRange_ne_nil a b hab
  · rw [hr]
    simp

theorem parsePart_ok_nodup (i : Nat) (p : String) (r : List Int)
    (h : parsePart i p = .ok r) : r.Nodup := by
  rcases parsePart_ok_shape i p r h with ⟨_, s1, s2, a, b, _, _, _, _, hr⟩ | ⟨_, v, _, hr⟩
  · rw [hr]
    exact goIntRange_nodup a b
  · rw [hr]
    simp

theorem parsePart_error_ne_noValid (i : Nat) (p : String) (e : ParseError)
    (h : parsePart i p = .error e) : e ≠ .noValidIPs := by
  unfold parsePart at h
  split at h
  · split at h
    · split at h
      · cases h
        simp
      · split at h
        · cases h
          simp
        · split at h
          · cases h
            simp
          · cases h
    · cases h
      simp
  · split at h
    · cases h
      simp
    · cases h

theorem genIPs_ok (cs : List (Int × Int × Int × Int)) (l : List String)
    (h : genIPs cs = .ok l) :
    l = cs.map (fun q => mkIP q.1 q.2.1 q.2.2.1 q.2.2.2) ∧ ∀ q ∈ cs, octetOK4 q = true := by
  induction cs generalizing l with
  | nil =>
    cases h
    simp
  | cons q rest ih =>
    obtain ⟨a, b, c, d⟩ := q
    unfold genIPs at h
    split at h
    · rename_i hok
      split at h
      · cases h
      · rename_i tl htl
        cases h
        obtain ⟨ih1, ih2⟩ := ih tl htl
        refine ⟨by simp [ih1], ?_⟩
        intro q hq
        rcases List.mem_cons.mp hq with hq | hq
        · rw [hq]
          exact hok
        · exact ih2 q hq
    · cases h

theorem genIPs_error_shape (cs : List (Int × Int × Int × Int)) (e : ParseError)
    (h : genIPs cs = .error e) : ∃ a b c d, e = .invalidIP a b c d := by
  induction cs generalizing e with
  | nil => cases h
  | cons q rest ih =>
    obtain ⟨a, b, c, d⟩ := q
    unfold genIPs at h
    split at h
    · split at h
      · rename_i e1 he1
        cases h
        exact ih _ he1
      · cases h
    · cases h
      exact ⟨a, b, c, d, rfl⟩

theorem parseIPRange_ok_parts (s : String) (ips : List String)
    (h : parseIPRange s = .ok ips) :
    ∃ p0 p1 p2 p3 r0 r1 r2 r3,
      goSplit '.' s = [p0, p1, p2, p3] ∧
      parsePart 0 p0 = .ok r0 ∧ parsePart 1 p1 = .ok r1 ∧
      parsePart 2 p2 = .ok r2 ∧ parsePart 3 p3 = .ok r3 ∧
      genIPs (combos r0 r1 r2 r3) = .ok ips := by
  unfold parseIPRange at h
  split at h
  · rename_i p0 p1 p2 p3 hsp
    split at h
    · cases h
    · rename_i r0 h0
      split at h
      · cases h
      · rename_i r1 h1
        split at h
        · cases h
        · rename_i r2 h2
          split at h
          · cases h
          · rename_i r3 h3
            split at h
            · cases h
            · rename_i l hl
              split at h
              · cases h
              · cases h
                exact ⟨p0, p1, p2, p3, r0, r1, r2, r3, hsp, h0, h1, h2, h3, hl⟩
  · cases h

theorem flatMap_const_length {α β : Type} (l : List α) (f : α → List β) (k : Nat)
    (h : ∀ a ∈ l, (f a).length = k) : (l.flatMap f).length = l.length * k := by
  induction l with
  | nil => simp
  | cons a l ih =>
    simp only [List.flatMap_cons, List.length_append, List.length_cons]
    rw [h a (List.mem_cons_self a l), ih (fun x hx => h x (List.mem_cons_of_mem _ hx))]
    ring

theorem nodup_flatMap_proj {α β : Type} (l : List α) (f : α → List β) (g : β → α)
    (hl : l.Nodup) (hf : ∀ a ∈ l, (f a).Nodup) (hg : ∀ a ∈ l, ∀ b ∈ f a, g b = a) :
    (l.flatMap f).Nodup := by
  rw [List.nodup_flatMap]
  refine ⟨hf, ?_⟩
  refine List.Pairwise.imp_of_mem ?_ hl
  intro a b ha hb hne x hxa hxb
  exact hne ((hg a ha x hxa).symm.trans (hg b hb x hxb))

theorem combos_nodup (r0 r1 r2 r3 : List Int) (h0 : r0.Nodup) (h1 : r1.Nodup)
    (h2 : r2.Nodup) (h3 : r3.Nodup) : (combos r0 r1 r2 r3).Nodup := by
  refine nodup_flatMap_proj _ _ (fun q => q.1) h0 ?_ ?_
  · intro a _
    refine nodup_flatMap_proj _ _ (fun q => q.2.1) h1 ?_ ?_
    · intro b _
      refine nodup_flatMap_proj _ _ (fun q => q.2.2.1) h2 ?_ ?_
      · intro c _
        refine List.Nodup.map ?_ h3
        intro x y hxy
        simpa using hxy
      · intro c _ q hq
        simp only [List.mem_map] at hq
        obtain ⟨d, _, rfl⟩ := hq
        rfl
    · intro b _ q hq
      simp only [List.mem_flatMap, List.mem_map] at hq
      obtain ⟨c, _, d, _, rfl⟩ := hq
      rfl
  · intro a _ q hq
    simp only [List.mem_flatMap, List.mem_map] at hq
    obtain ⟨b, _, c, _, d, _, rfl⟩ := hq
    rfl

theorem combos_length (r0 r1 r2 r3 : List Int) :
    (combos r0 r1 r2 r3).length = r0.length * (r1.length * (r2.length * r3.length)) := by
  refine flatMap_const_length _ _ _ ?_
  intro a _
  refine flatMap_const_length _ _ _ ?_
  intro b _
  refine flatMap_const_length _ _ _ ?_
  intro c _
  simp

theorem combos_ne_nil (r0 r1 r2 r3 : List Int) (h0 : r0 ≠ []) (h1 : r1 ≠ [])
    (h2 : r2 ≠ []) (h3 : r3 ≠ []) : combos r0 r1 r2 r3 ≠ [] := by
  intro h
  have hlen := combos_length r0 r1 r2 r3
  rw [h] at hlen
  simp only [List.length_nil] at hlen
  rcases Nat.mul_eq_zero.mp hlen.symm with hz | hz
  · exact h0 (List.length_eq_zero.mp hz)
  rcases Nat.mul_eq_zero.mp hz with hz | hz
  · exact h1 (List.length_eq_zero.mp hz)
  rcases Nat.mul_eq_zero.mp hz with hz | hz
  · exact h2 (List.length_eq_zero.mp hz)
  · exact h3 (List.length_eq_zero.mp hz)

theorem int_toString_nonneg (v : Int) (h : 0 ≤ v) : toString v = Nat.repr v.toNat := by
  cases v with
  | ofNat n => rfl
  | negSucc n =>
    exact absurd h (by simp)

theorem mkIP_data (a b c d : Int) :
    (mkIP a b c d).data
      = (toString a).data ++ '.' :: ((toString b).data ++ '.' :: ((toString c).data
          ++ '.' :: (toString d).data)) := by
  have hdot : (".").data = ['.'] := rfl
  simp [mkIP, data_append, hdot, List.append_assoc]

theorem octetOK4_bounds (a b c d : Int) (h : octetOK4 (a, b, c, d) = true) :
    (0 ≤ a ∧ a ≤ 255) ∧ (0 ≤ b ∧ b ≤ 255) ∧ (0 ≤ c ∧ c ≤ 255) ∧ (0 ≤ d ∧ d ≤ 255) := by
  simp only [octetOK4, octetOK, Bool.and_eq_true, decide_eq_true_eq] at h
  tauto

theorem repr_no_dot (n : Nat) (h : n < 256) : '.' ∉ (Nat.repr n).data :=
  not_mem_of_parseDec _ _ (parseDecChars_repr n h) '.' (by decide)

theorem ipOctets_mkIP (a b c d : Int)
    (ha0 : 0 ≤ a) (ha1 : a ≤ 255) (hb0 : 0 ≤ b) (hb1 : b ≤ 255)
    (hc0 : 0 ≤ c) (hc1 : c ≤ 255) (hd0 : 0 ≤ d) (hd1 : d ≤ 255) :
    ipOctets (mkIP a b c d) = some (a.toNat, b.toNat, c.toNat, d.toNat) := by
  have hna : a.toNat < 256 := by omega
  have hnb : b.toNat < 256 := by omega
  have hnc : c.toNat < 256 := by omega
  have hnd : d.toNat < 256 := by omega
  unfold ipOctets
  rw [mkIP_data, int_toString_nonneg a ha0, int_toString_nonneg b hb0,
    int_toString_nonneg c hc0, int_toString_nonneg d hd0,
    splitOnChar_append '.' _ _ (repr_no_dot _ hna),
    splitOnChar_append '.' _ _ (repr_no_dot _ hnb),
    splitOnChar_append '.' _ _ (repr_no_dot _ hnc),
    splitOnChar_no_sep '.' _ (repr_no_dot _ hnd)]
  simp [parseDecChars_repr _ hna, parseDecChars_repr _ hnb,
    parseDecChars_repr _ hnc, parseDecChars_repr _ hnd]

theorem mkIP_inj_valid (q q' : Int × Int × Int × Int)
    (hv : octetOK4 q = true) (hv' : octetOK4 q' = true)
    (h : mkIP q.1 q.2.1 q.2.2.1 q.2.2.2 = mkIP q'.1 q'.2.1 q'.2.2.1 q'.2.2.2) : q = q' := by
  obtain ⟨a, b, c, d⟩ := q
  obtain ⟨a', b', c', d'⟩ := q'
  obtain ⟨⟨ha0, ha1⟩, ⟨hb0, hb1⟩, ⟨hc0, hc1⟩, ⟨hd0, hd1⟩⟩ := octetOK4_bounds a b c d hv
  obtain ⟨⟨ha0', ha1'⟩, ⟨hb0', hb1'⟩, ⟨hc0', hc1'⟩, ⟨hd0', hd1'⟩⟩ :=
    octetOK4_bounds a' b' c' d' hv'
  have e1 := ipOctets_mkIP a b c d ha0 ha1 hb0 hb1 hc0 hc1 hd0 hd1
  have e2 := ipOctets_mkIP a' b' c' d' ha0' ha1' hb0' hb1' hc0' hc1' hd0' hd1'
  rw [show mkIP a b c d = mkIP a' b' c' d' from h, e2] at e1
  simp only [Option.some.injEq, Prod.mk.injEq] at e1
  obtain ⟨e1a, e1b, e1c, e1d⟩ := e1
  simp only [Prod.mk.injEq]
  refine ⟨by omega, by omega, by omega, by omega⟩

/-! ## Helper lemmas about the result sink -/

theorem formatLine_data (r : RemoteServer) :
    (formatLine r).data = recordChars r ++ ['\n'] := by
  have h1 : ("\x7b").data = ['\x7b'] := rfl
  have h2 : ("\x7d\n").data = ['\x7d', '\n'] := rfl
  have h3 : (":").data = [':'] := rfl
  unfold formatLine recordChars payloadOrReason
  cases hs : r.Success <;>
    simp [hs, data_append, h1, h2, h3, List.append_assoc]

theorem newline_not_mem_recordChars (r : RemoteServer)
    (hip : '\n' ∉ r.IP.data) (hp : '\n' ∉ (payloadOrReason r).data) :
    '\n' ∉ recordChars r := by
  unfold recordChars
  intro hm
  rcases List.mem_cons.mp hm with hm | hm
  · cases hm
  rcases List.mem_append.mp hm with hm | hm
  · rcases List.mem_append.mp hm with hm | hm
    · exact hip hm
    · rcases List.mem_cons.mp hm with hm | hm
      · cases hm
      · exact hp hm
  · rcases List.mem_cons.mp hm with hm | hm
    · cases hm
    · cases hm

theorem parseRecordChars_format (r : RemoteServer) (hip : ':' ∉ r.IP.data) :
    parseRecordChars (recordChars r) = some (r.IP, payloadOrReason r) := by
  unfold recordChars parseRecordChars
  simp only [List.getLast?_concat, List.dropLast_concat]
  rw [span_append_sep (· != ':') r.IP.data (payloadOrReason r).data ':'
    (fun x hx => by simp; exact fun hh => hip (hh ▸ hx)) (by decide)]
  simp [mk_data]

theorem fileContent_data_cons (r : RemoteServer) (rs : List RemoteServer) :
    (fileContent (r :: rs)).data = recordChars r ++ '\n' :: (fileContent rs).data := by
  unfold fileContent
  rw [String.data_join, List.map_cons, List.map_cons, List.flatten_cons, formatLine_data]
  rw [String.data_join]
  simp [List.append_assoc]

theorem parseResultFile_roundtrip (results : List RemoteServer)
    (h : ∀ r ∈ results, '\n' ∉ r.IP.data ∧ ':' ∉ r.IP.data ∧ '\n' ∉ (payloadOrReason r).data) :
    parseResultFile (fileContent results)
      = some (results.map fun r => (r.IP, payloadOrReason r)) := by
  induction results with
  | nil => decide
  | cons r rs ih =>
    have hr := h r (List.mem_cons_self r rs)
    have ih' := ih (fun x hx => h x (List.mem_cons_of_mem _ hx))
    have hnorec : '\n' ∉ recordChars r := newline_not_mem_recordChars r hr.1 hr.2.2
    unfold parseResultFile at ih' ⊢
    rw [fileContent_data_cons, splitOnChar_append '\n' _ _ hnorec]
    obtain ⟨hd, tl, hpieces⟩ :=
      List.exists_cons_of_ne_nil (splitOnChar_ne_nil '\n' (fileContent rs).data)
    rw [hpieces] at ih' ⊢
    by_cases hcond : (hd :: tl).getLast? = some []
    · rw [if_pos hcond] at ih'
      rw [if_pos (by rw [List.getLast?_cons_cons]; exact hcond)]
      rw [show (recordChars r :: hd :: tl).dropLast = recordChars r :: (hd :: tl).dropLast
        from rfl]
      unfold parseRecords
      rw [parseRecordChars_format r hr.2.1, ih']
      simp
    · rw [if_neg hcond] at ih'
      cases ih'

theorem fileContent_lines (results : List RemoteServer)
    (h : ∀ r ∈ results, '\n' ∉ r.IP.data ∧ '\n' ∉ (payloadOrReason r).data) :
    splitOnChar '\n' (fileContent results).data = results.map recordChars ++ [[]] := by
  induction results with
  | nil => decide
  | cons r rs ih =>
    have hr := h r (List.mem_cons_self r rs)
    rw [fileContent_data_cons,
      splitOnChar_append '\n' _ _ (newline_not_mem_recordChars r hr.1 hr.2),
      ih (fun x hx => h x (List.mem_cons_of_mem _ hx))]
    simp

theorem writeLines_fsAllOk (results : List RemoteServer) :
    writeLines fsAllOk results = .ok (results.map formatLine) := by
  induction results with
  | nil => rfl
  | cons r rs ih =>
    show (match writeLines fsAllOk rs with
      | .error e => Except.error e
      | .ok tl => Except.ok (formatLine r :: tl)) = _
    rw [ih]
    rfl

theorem countP_not_complement {α : Type} (l : List α) (p : α → Bool) :
    l.countP p + l.countP (fun a => !p a) = l.length := by
  induction l with
  | nil => rfl
  | cons a l ih =>
    cases ha : p a <;> simp [List.countP_cons, ha] <;> omega

/-! ## The claims -/

/-- Claim C1 (code bug).  In the model, every launched worker produces exactly
one outcome and the in-memory success and failure counts always sum to the
number of targets; but with any unreachable target in the mix the
unreachable-path goroutine never calls `wg.Done()` (it is deferred only inside
`getOSInfo`), so `wg.Wait()` never returns, `close(results)` never runs, and
the collector loop never terminates — the scan never completes.  With every
host reachable the channel does close. -/
theorem claim1_unreachable_scan_never_completes :
    (∀ (env : NetEnv) (config : SSHConfig) (ips : List String),
      (scanOutcomes env config ips).length = ips.length ∧
      successCount (scanOutcomes env config ips) + failedCount (scanOutcomes env config ips)
        = ips.length) ∧
    scanOutcomes envAllDown mainConfig ["192.168.33.1", "192.168.33.2"]
      = [{ IP := "192.168.33.1", Success := false, Error := "Host unreachable" },
         { IP := "192.168.33.2", Success := false, Error := "Host unreachable" }] ∧
    wgDoneCount envAllDown mainConfig ["192.168.33.1", "192.168.33.2"] = 0 ∧
    resultsChannelCloses envAllDown mainConfig ["192.168.33.1", "192.168.33.2"] = false ∧
    resultsChannelCloses envAllOk mainConfig ["192.168.33.1", "192.168.33.2"] = true := by
  refine ⟨?_, by decide, by decide, by decide, by decide⟩
  intro env config ips
  refine ⟨by simp [scanOutcomes], ?_⟩
  unfold successCount failedCount
  have hc := countP_not_complement (scanOutcomes env config ips) (fun x => x.Success)
  rwa [show (scanOutcomes env config ips).length = ips.length from by simp [scanOutcomes]] at hc

/-- Claim C1 witness: the general conjunct applied at a concrete scan. -/
theorem claim1_witness :
    successCount (scanOutcomes envBothFail mainConfig ["10.0.0.1"])
      + failedCount (scanOutcomes envBothFail mainConfig ["10.0.0.1"]) = 1 :=
  (claim1_unreachable_scan_never_completes.1 envBothFail mainConfig ["10.0.0.1"]).2

/-- Claim C2 counterexample: when the result file cannot be created, `main`
prints only the save error and returns — the aggregated counts (here 1
success, 1 failure) are not reported to the console, contradicting the
claim. -/
theorem claim2_counterexample :
    mainTail fsFailCreate
      [{ IP := "1.2.3.4", OSInfo := "NAME=X", Success := true },
       { IP := "1.2.3.5", Success := false, Error := "failed to dial: x" }]
      = ["Error saving results: permission denied"] ∧
    "Successful: 1" ∉ mainTail fsFailCreate
      [{ IP := "1.2.3.4", OSInfo := "NAME=X", Success := true },
       { IP := "1.2.3.5", Success := false, Error := "failed to dial: x" }] ∧
    "Failed: 1" ∉ mainTail fsFailCreate
      [{ IP := "1.2.3.4", OSInfo := "NAME=X", Success := true },
       { IP := "1.2.3.5", Success := false, Error := "failed to dial: x" }] := by
  decide

/-- Claim C2, amended: if the result file cannot be created or written, `main`
prints the save error and returns without the console summary; the aggregated
counts are printed exactly when the save succeeds (lines 279-289). -/
theorem claim2_summary_only_on_save_success :
    (∀ (fs : FSEnv) (allResults : List RemoteServer) (e : String),
      saveResultsToFile fs allResults outputFile = .error e →
      mainTail fs allResults = ["Error saving results: " ++ e]) ∧
    (∀ (fs : FSEnv) (allResults : List RemoteServer) (lines : List String),
      saveResultsToFile fs allResults outputFile = .ok lines →
      mainTail fs allResults =
        ["Scan completed!",
         "Successful: " ++ toString (successCount allResults),
         "Failed: " ++ toString (failedCount allResults),
         "Results saved to: " ++ outputFile]) := by
  constructor
  · intro fs rs e h
    unfold mainTail
    rw [h]
  · intro fs rs lines h
    unfold mainTail
    rw [h]

/-- Claim C2 witness. -/
theorem claim2_witness :
    mainTail fsFailCreate [] = ["Error saving results: permission denied"] ∧
    mainTail fsAllOk [] = ["Scan completed!", "Successful: 0", "Failed: 0",
      "Results saved to: os-results.txt"] := by
  constructor
  · exact claim2_summary_only_on_save_success.1 fsFailCreate [] "permission denied" (by decide)
  · exact (claim2_summary_only_on_save_success.2 fsAllOk [] [] (by decide)).trans (by decide)

/-- Claim C3 counterexample: a fingerprint payload with an interior newline
(`strings.TrimSpace` removes only surrounding whitespace, and `os-release`
files are multi-line) makes one outcome span two lines, and the written file
does not parse back to the report. -/
theorem claim3_counterexample :
    writeLines fsAllOk [{ IP := "1.2.3.4", OSInfo := "ID=x\nNAME=y", Success := true }]
      = .ok ["\x7b1.2.3.4:ID=x\nNAME=y\x7d\n"] ∧
    (splitOnChar '\n' (fileContent
      [{ IP := "1.2.3.4", OSInfo := "ID=x\nNAME=y", Success := true }]).data).length = 3 ∧
    parseResultFile (fileContent
      [{ IP := "1.2.3.4", OSInfo := "ID=x\nNAME=y", Success := true }]) = none := by
  decide

/-- Claim C3, amended: for every report whose addresses contain no newline or
colon and whose payloads and failure reasons contain no newline, the sink
writes exactly one `\x7b<address>:<payload-or-reason>\x7d` line per outcome,
in report order, and the written content parses back to exactly the report's
`(address, payload-or-reason)` pairs in order. -/
theorem claim3_sink_roundtrip :
    ∀ results : List RemoteServer,
      (∀ r ∈ results, '\n' ∉ r.IP.data ∧ ':' ∉ r.IP.data ∧ '\n' ∉ (payloadOrReason r).data) →
      saveResultsToFile fsAllOk results outputFile = .ok (results.map formatLine) ∧
      (splitOnChar '\n' (fileContent results).data).dropLast = results.map recordChars ∧
      parseResultFile (fileContent results)
        = some (results.map fun r => (r.IP, payloadOrReason r)) := by
  intro results h
  refine ⟨?_, ?_, parseResultFile_roundtrip results h⟩
  · show writeLines fsAllOk results = _
    exact writeLines_fsAllOk results
  · rw [fileContent_lines results (fun r hr => ⟨(h r hr).1, (h r hr).2.2⟩)]
    simp

/-- Claim C3 witness. -/
theorem claim3_witness :
    saveResultsToFile fsAllOk [{ IP := "1.2.3.4", OSInfo := "NAME=X", Success := true }]
      outputFile = .ok ["\x7b1.2.3.4:NAME=X\x7d\n"] ∧
    parseResultFile (fileContent [{ IP := "1.2.3.4", OSInfo := "NAME=X", Success := true }])
      = some [("1.2.3.4", "NAME=X")] := by
  have h := claim3_sink_roundtrip [{ IP := "1.2.3.4", OSInfo := "NAME=X", Success := true }]
    (by decide)
  exact ⟨h.1.trans (by decide), h.2.2⟩

/-- Claim C4: a successful expansion is exactly the column-major enumeration
of the four parsed ranges (fourth octet fastest), its size is the product of
the four range sizes, its addresses are pairwise distinct, and each is a
syntactically valid dotted quad with every octet in [0,255]; and
`"10.0.0.1-3"` expands to exactly `["10.0.0.1","10.0.0.2","10.0.0.3"]`. -/
theorem claim4_expander_product_distinct_ordered :
    (∀ s ips, parseIPRange s = .ok ips →
      ∃ p0 p1 p2 p3 r0 r1 r2 r3,
        goSplit '.' s = [p0, p1, p2, p3] ∧
        parsePart 0 p0 = .ok r0 ∧ parsePart 1 p1 = .ok r1 ∧
        parsePart 2 p2 = .ok r2 ∧ parsePart 3 p3 = .ok r3 ∧
        ips = (combos r0 r1 r2 r3).map (fun q => mkIP q.1 q.2.1 q.2.2.1 q.2.2.2) ∧
        ips.length = r0.length * (r1.length * (r2.length * r3.length)) ∧
        ips.Nodup ∧
        (∀ ip ∈ ips, ∃ a b c d : Nat, a ≤ 255 ∧ b ≤ 255 ∧ c ≤ 255 ∧ d ≤ 255 ∧
          ipOctets ip = some (a, b, c, d))) ∧
    parseIPRange "10.0.0.1-3" = .ok ["10.0.0.1", "10.0.0.2", "10.0.0.3"] := by
  constructor
  · intro s ips h
    obtain ⟨p0, p1, p2, p3, r0, r1, r2, r3, hsp, h0, h1, h2, h3, hgen⟩ :=
      parseIPRange_ok_parts s ips h
    obtain ⟨hmap, hvalid⟩ := genIPs_ok _ _ hgen
    refine ⟨p0, p1, p2, p3, r0, r1, r2, r3, hsp, h0, h1, h2, h3, hmap, ?_, ?_, ?_⟩
    · rw [hmap, List.length_map, combos_length]
    · rw [hmap]
      refine List.Nodup.map_on ?_ (combos_nodup r0 r1 r2 r3
        (parsePart_ok_nodup 0 p0 r0 h0) (parsePart_ok_nodup 1 p1 r1 h1)
        (parsePart_ok_nodup 2 p2 r2 h2) (parsePart_ok_nodup 3 p3 r3 h3))
      intro x hx y hy hxy
      exact mkIP_inj_valid x y (hvalid x hx) (hvalid y hy) hxy
    · intro ip hip
      rw [hmap] at hip
      obtain ⟨q, hq, rfl⟩ := List.mem_map.mp hip
      obtain ⟨a, b, c, d⟩ := q
      obtain ⟨⟨ha0, ha1⟩, ⟨hb0, hb1⟩, ⟨hc0, hc1⟩, ⟨hd0, hd1⟩⟩ :=
        octetOK4_bounds a b c d (hvalid _ hq)
      exact ⟨a.toNat, b.toNat, c.toNat, d.toNat, by omega, by omega, by omega, by omega,
        ipOctets_mkIP a b c d ha0 ha1 hb0 hb1 hc0 hc1 hd0 hd1⟩
  · decide

/-- Claim C4 witness: the characterization instantiated at `"10.0.0.1-3"`. -/
theorem claim4_witness :
    ∃ p0 p1 p2 p3 r0 r1 r2 r3,
      goSplit '.' "10.0.0.1-3" = [p0, p1, p2, p3] ∧
      parsePart 0 p0 = .ok r0 ∧ parsePart 1 p1 = .ok r1 ∧
      parsePart 2 p2 = .ok r2 ∧ parsePart 3 p3 = .ok r3 ∧
      ["10.0.0.1", "10.0.0.2", "10.0.0.3"]
        = (combos r0 r1 r2 r3).map (fun q => mkIP q.1 q.2.1 q.2.2.1 q.2.2.2) ∧
      (["10.0.0.1", "10.0.0.2", "10.0.0.3"] : List String).length
        = r0.length * (r1.length * (r2.length * r3.length)) ∧
      (["10.0.0.1", "10.0.0.2", "10.0.0.3"] : List String).Nodup ∧
      (∀ ip ∈ (["10.0.0.1", "10.0.0.2", "10.0.0.3"] : List String),
        ∃ a b c d : Nat, a ≤ 255 ∧ b ≤ 255 ∧ c ≤ 255 ∧ d ≤ 255 ∧
          ipOctets ip = some (a, b, c, d)) :=
  claim4_expander_product_distinct_ordered.1 "10.0.0.1-3" _
    claim4_expander_product_distinct_ordered.2

/-- Claim C5: the fingerprint probe records the trimmed primary output on
primary success, attempts exactly one fallback when the primary fails,
records the trimmed fallback output if the fallback succeeds, and on double
failure records the second attempt's error (the first attempt's error is
discarded). -/
theorem claim5_fingerprint_fallback : ∀ (env : NetEnv) (ip : String) (config : SSHConfig),
    (∀ out, executeSSHCommand env ip config primaryCmd = .ok out →
      getOSInfo env ip config = { IP := ip, OSInfo := trimSpace out, Success := true } ∧
      osCommandsAttempted env ip config = [primaryCmd]) ∧
    (∀ e out, executeSSHCommand env ip config primaryCmd = .error e →
      executeSSHCommand env ip config fallbackCmd = .ok out →
      getOSInfo env ip config = { IP := ip, OSInfo := trimSpace out, Success := true } ∧
      osCommandsAttempted env ip config = [primaryCmd, fallbackCmd]) ∧
    (∀ e1 e2, executeSSHCommand env ip config primaryCmd = .error e1 →
      executeSSHCommand env ip config fallbackCmd = .error e2 →
      getOSInfo env ip config = { IP := ip, Success := false, Error := e2 } ∧
      osCommandsAttempted env ip config = [primaryCmd, fallbackCmd]) := by
  intro env ip config
  refine ⟨?_, ?_, ?_⟩
  · intro out h
    unfold getOSInfo osCommandsAttempted
    rw [h]
    exact ⟨rfl, rfl⟩
  · intro e out h1 h2
    unfold getOSInfo osCommandsAttempted
    rw [h1, h2]
    exact ⟨rfl, rfl⟩
  · intro e1 e2 h1 h2
    unfold getOSInfo osCommandsAttempted
    rw [h1, h2]
    exact ⟨rfl, rfl⟩

/-- Claim C5 witness: all three cases at concrete networks. -/
theorem claim5_witness :
    (getOSInfo envAllOk "10.0.0.1" mainConfig
        = { IP := "10.0.0.1", OSInfo := "NAME=Ubuntu", Success := true } ∧
      osCommandsAttempted envAllOk "10.0.0.1" mainConfig = [primaryCmd]) ∧
    (getOSInfo envFallbackOk "10.0.0.1" mainConfig
        = { IP := "10.0.0.1", OSInfo := "NAME=Alpine", Success := true } ∧
      osCommandsAttempted envFallbackOk "10.0.0.1" mainConfig = [primaryCmd, fallbackCmd]) ∧
    (getOSInfo envBothFail "10.0.0.1" mainConfig
        = { IP := "10.0.0.1", Success := false,
            Error := "failed to execute command: Process exited with status 2" } ∧
      osCommandsAttempted envBothFail "10.0.0.1" mainConfig = [primaryCmd, fallbackCmd]) := by
  refine ⟨?_, ?_, ?_⟩
  · have h := (claim5_fingerprint_fallback envAllOk "10.0.0.1" mainConfig).1
      " NAME=Ubuntu \n" (by decide)
    exact ⟨h.1.trans (by decide), h.2⟩
  · have h := (claim5_fingerprint_fallback envFallbackOk "10.0.0.1" mainConfig).2.1
      "failed to execute command: Process exited with status 1" "\tNAME=Alpine\n"
      (by decide) (by decide)
    exact ⟨h.1.trans (by decide), h.2⟩
  · have h := (claim5_fingerprint_fallback envBothFail "10.0.0.1" mainConfig).2.2
      "failed to execute command: Process exited with status 1"
      "failed to execute command: Process exited with status 2" (by decide) (by decide)
    exact ⟨h.1, h.2⟩

/-- Claim C6 counterexample: the recorded reason for an unreachable host is
the fixed string `"Host unreachable"`, which differs from the claim's quoted
`"host unreachable"`. -/
theorem claim6_counterexample :
    (runWorker envAllDown mainConfig "192.168.33.1").outcome.Success = false ∧
    (runWorker envAllDown mainConfig "192.168.33.1").sshDials = 0 ∧
    (runWorker envAllDown mainConfig "192.168.33.1").outcome.Error = "Host unreachable" ∧
    (runWorker envAllDown mainConfig "192.168.33.1").outcome.Error ≠ "host unreachable" := by
  decide

/-- Claim C6, amended: a target whose reachability probe returns false is
recorded immediately as a failed outcome with the fixed reason
`"Host unreachable"` (capital H), with zero `ssh.Dial` attempts (no session
establishment) and without reaching `getOSInfo`. -/
theorem claim6_unreachable_no_ssh_dial : ∀ (env : NetEnv) (config : SSHConfig) (ip : String),
    isHostReachable env.dialTimeout ip config.Port reachabilityTimeout = false →
    runWorker env config ip =
      { outcome := { IP := ip, Success := false, Error := "Host unreachable" },
        sshDials := 0, wgDone := false } := by
  intro env config ip h
  unfold runWorker
  rw [h]
  simp

/-- Claim C6 witness. -/
theorem claim6_witness :
    runWorker envAllDown mainConfig "10.0.0.1" =
      { outcome := { IP := "10.0.0.1", Success := false, Error := "Host unreachable" },
        sshDials := 0, wgDone := false } :=
  claim6_unreachable_no_ssh_dial envAllDown mainConfig "10.0.0.1" (by decide)

/-- Claim C7: the expander rejects part counts other than four with the typed
format error; a malformed or non-numeric range bound, and an inverted range,
each produce their typed part error; a successful generation implies every
combination's octets were in [0,255] (so any out-of-range combination is
rejected); the bound check happens per generated combination, not per declared
bound (`parsePart` accepts the lone `"300"`, generation then rejects it); and
`"1.2.3.256"` fails with the octet-range error, producing no targets and
aborting the run before scanning. -/
theorem claim7_expander_rejections :
    (∀ s, (goSplit '.' s).length ≠ 4 → parseIPRange s = .error .invalidFormat) ∧
    (∀ i p s1 s2, goContains p '-' = true → goSplit '-' p = [s1, s2] →
      (goAtoi s1 = none → parsePart i p = .error (.invalidStart i s1)) ∧
      (∀ a, goAtoi s1 = some a → goAtoi s2 = none →
        parsePart i p = .error (.invalidEnd i s2)) ∧
      (∀ a b, goAtoi s1 = some a → goAtoi s2 = some b → b < a →
        parsePart i p = .error (.startGreaterThanEnd i))) ∧
    (∀ cs l, genIPs cs = .ok l → ∀ q ∈ cs, octetOK4 q = true) ∧
    (parsePart 3 "300" = .ok [300] ∧
      parseIPRange "1.2.3.300" = .error (.invalidIP 1 2 3 300)) ∧
    (parseIPRange "1.2.3.256" = .error (.invalidIP 1 2 3 256) ∧
      runScan envAllOk mainConfig "1.2.3.256" = none) := by
  refine ⟨?_, ?_, ?_, ⟨by decide, by decide⟩, ⟨by decide, by decide⟩⟩
  · intro s hlen
    unfold parseIPRange
    split
    · rename_i p0 p1 p2 p3 hsp
      exact absurd (show (goSplit '.' s).length = 4 from by rw [hsp]; rfl) hlen
    · rfl
  · intro i p s1 s2 hc hsp
    refine ⟨?_, ?_, ?_⟩
    · intro h1
      simp only [parsePart, hc, hsp, h1, eq_self_iff_true, if_true]
    · intro a h1 h2
      simp only [parsePart, hc, hsp, h1, h2, eq_self_iff_true, if_true]
    · intro a b h1 h2 hab
      simp only [parsePart, hc, hsp, h1, h2, eq_self_iff_true, if_true]
      rw [if_pos hab]
  · intro cs l h
    exact (genIPs_ok cs l h).2

/-- Claim C7 witness: each rejection rule at a concrete input. -/
theorem claim7_witness :
    parseIPRange "1.2.3" = .error .invalidFormat ∧
    parsePart 0 "a-3" = .error (.invalidStart 0 "a") ∧
    parsePart 1 "1-b" = .error (.invalidEnd 1 "b") ∧
    parsePart 2 "3-2" = .error (.startGreaterThanEnd 2) ∧
    octetOK4 (0, 0, 0, 0) = true := by
  refine ⟨?_, ?_, ?_, ?_, ?_⟩
  · exact claim7_expander_rejections.1 "1.2.3" (by decide)
  · exact (claim7_expander_rejections.2.1 0 "a-3" "a" "3" (by decide) (by decide)).1 (by decide)
  · exact (claim7_expander_rejections.2.1 1 "1-b" "1" "b" (by decide) (by decide)).2.1 1
      (by decide) (by decide)
  · exact (claim7_expander_rejections.2.1 2 "3-2" "3" "2" (by decide) (by decide)).2.2 3 2
      (by decide) (by decide) (by decide)
  · exact claim7_expander_rejections.2.2.1 [(0, 0, 0, 0)] ["0.0.0.0"] (by decide)
      (0, 0, 0, 0) (by decide)

/-- Claim C8: the expander never returns an empty target list — a successful
parse always holds at least one address — and the `EmptyResultError` branch
(line 95) is unreachable: no input makes `parseIPRange` return
`noValidIPs`. -/
theorem claim8_expansion_never_empty :
    (∀ s ips, parseIPRange s = .ok ips → ips ≠ []) ∧
    (∀ s, parseIPRange s ≠ .error .noValidIPs) := by
  constructor
  · intro s ips h
    unfold parseIPRange at h
    split at h
    · split at h
      · cases h
      · split at h
        · cases h
        · split at h
          · cases h
          · split at h
            · cases h
            · split at h
              · cases h
              · split at h
                · cases h
                · rename_i hne
                  cases h
                  intro hnil
                  exact hne (by simp [hnil])
    · cases h
  · intro s hcontra
    unfold parseIPRange at hcontra
    split at hcontra
    · rename_i p0 p1 p2 p3 hsp
      split at hcontra
      · rename_i e he
        cases hcontra
        exact parsePart_error_ne_noValid _ _ _ he rfl
      · rename_i r0 h0
        split at hcontra
        · rename_i e he
          cases hcontra
          exact parsePart_error_ne_noValid _ _ _ he rfl
        · rename_i r1 h1
          split at hcontra
          · rename_i e he
            cases hcontra
            exact parsePart_error_ne_noValid _ _ _ he rfl
          · rename_i r2 h2
            split at hcontra
            · rename_i e he
              cases hcontra
              exact parsePart_error_ne_noValid _ _ _ he rfl
            · rename_i r3 h3
              split at hcontra
              · rename_i e he
                cases hcontra
                obtain ⟨a, b, c, d, he'⟩ := genIPs_error_shape _ _ he
                cases he'
              · rename_i l hl
                split at hcontra
                · rename_i hemp
                  obtain ⟨hmap, _⟩ := genIPs_ok _ _ hl
                  have hcne := combos_ne_nil r0 r1 r2 r3
                    (parsePart_ok_ne_nil 0 p0 r0 h0) (parsePart_ok_ne_nil 1 p1 r1 h1)
                    (parsePart_ok_ne_nil 2 p2 r2 h2) (parsePart_ok_ne_nil 3 p3 r3 h3)
                  rw [hmap] at hemp
                  rw [List.isEmpty_iff, List.map_eq_nil_iff] at hemp
                  exact hcne hemp
                · cases hcontra
    · cases hcontra

/-- Claim C8 witness. -/
theorem claim8_witness : (["1.2.3.4"] : List String) ≠ [] :=
  claim8_expansion_never_empty.1 "1.2.3.4" ["1.2.3.4"] (by decide)

/-- Claim C9: the reachability probe returns only a boolean — it is `true`
exactly when the dial succeeds, so every error is collapsed to `false` with
no detail surfaced — and the fixed 3-second probe timeout is distinct from
and shorter than the configured 10-second session timeout. -/
theorem claim9_reachability_boolean_and_timeouts :
    (∀ (dial : String → Nat → Except String Unit) (ip : String) (port t : Nat),
      isHostReachable dial ip port t = true ↔ dial (sshAddr ip port) t = .ok ()) ∧
    reachabilityTimeout = 3 * timeSecond ∧
    mainConfig.Timeout = 10 * timeSecond ∧
    reachabilityTimeout < mainConfig.Timeout := by
  refine ⟨?_, rfl, rfl, by decide⟩
  intro dial ip port t
  unfold isHostReachable
  cases hd : dial (sshAddr ip port) t with
  | error e => simp [hd]
  | ok u =>
    cases u
    simp [hd]

/-- Claim C9 witness. -/
theorem claim9_witness :
    isHostReachable (fun _ _ => .ok ()) "10.0.0.1" 22 reachabilityTimeout = true :=
  (claim9_reachability_boolean_and_timeouts.1 (fun _ _ => .ok ()) "10.0.0.1" 22
    reachabilityTimeout).mpr rfl

/-- Claim C10: a part containing `-` is only ever parsed as a range — it
parses successfully exactly via two `Atoi`-numeric pieces with
`start ≤ end` — the negative literal octet `"-1"` is rejected with the
malformed-bound error `invalidStart` (empty piece before the `-`) rather than
the octet-range error, and the single-value path applies exactly to
`-`-free parts. -/
theorem claim10_dash_part_is_range :
    (∀ i p r, goContains p '-' = true → parsePart i p = .ok r →
      ∃ s1 s2 a b, goSplit '-' p = [s1, s2] ∧ goAtoi s1 = some a ∧ goAtoi s2 = some b ∧
        a ≤ b ∧ r = goIntRange a b) ∧
    parseIPRange "1.2.3.-1" = .error (.invalidStart 3 "") ∧
    (∀ i p, goContains p '-' = false →
      parsePart i p = (match goAtoi p with
        | none => Except.error (.invalidValue i p)
        | some v => Except.ok [v])) := by
  refine ⟨?_, by decide, ?_⟩
  · intro i p r hc h
    rcases parsePart_ok_shape i p r h with ⟨_, rest⟩ | ⟨hcf, _⟩
    · exact rest
    · rw [hc] at hcf
      cases hcf
  · intro i p hc
    unfold parsePart
    rw [if_neg (by rw [hc]; simp)]

/-- Claim C10 witness. -/
theorem claim10_witness :
    (∃ s1 s2 a b, goSplit '-' "1-3" = [s1, s2] ∧ goAtoi s1 = some a ∧ goAtoi s2 = some b ∧
      a ≤ b ∧ goIntRange 1 3 = goIntRange a b) ∧
    parsePart 0 "7" = (match goAtoi "7" with
      | none => Except.error (.invalidValue 0 "7")
      | some v => Except.ok [v]) := by
  constructor
  · exact claim10_dash_part_is_range.1 0 "1-3" (goIntRange 1 3) (by decide) (by decide)
  · exact claim10_dash_part_is_range.2.2 0 "7" (by decide)

end ScanOS

